import Mathlib

/-!
Verification of the combat-phase game engine in `mtg/game_state.py`
(repository `ppone/pysandbox`).

The file first embeds the data model and the operations of `GameState`
as executable Lean definitions, then proves the specification claims.

`GameState` itself is translated directly from `src/mtg/game_state.py`.
The collaborators it imports (`BattlegroundState`, `CreatureState`,
`CombatAssignment`, the `TurnPhase`/`Outcome` constants) are not part of
the provided sources, so they are modelled from the specification's
interface contract (spec sections 3 and 6), each with a doc comment
saying so.

Python's in-place mutation is embedded as explicit state passing: every
fallible operation has type `GameState → ... → Except GError GameState`,
where an `Except.error` result corresponds to a `raise` executed before
any mutation statement of the source (the source validates completely
before mutating, and the Lean definitions mirror the statement order of
the source, so an error result always leaves the caller's state as it
was).  Integers are Lean `Int` (Python ints are unbounded).
-/

/-- Modelled from the spec: the `TurnPhase` constants of the missing
`constants.py`.  The spec's repr examples `(0/0)` and `(0/2)` fix the
numeric encoding DeclareAttackers = 0, DeclareBlockers = 1,
CombatStep = 2; phases are rendered with `%d`, so they are plain
integers. -/
def TurnPhase.DeclareAttackers : Nat := 0

/-- Modelled from the spec: the DeclareBlockers phase constant. -/
def TurnPhase.DeclareBlockers : Nat := 1

/-- Modelled from the spec: the CombatStep phase constant. -/
def TurnPhase.CombatStep : Nat := 2

/-- Modelled from the spec: the `Outcome` constants of the missing
`constants.py` (win, loss or draw). -/
inductive Outcome where
  | Win : Outcome
  | Loss : Outcome
  | Draw : Outcome
deriving DecidableEq

/-- The error kinds of spec section 7.  The Python source raises
`ValueError` (or `KeyError` for a missing creature id) with distinct
messages; each distinct raise site is modelled by its own constructor. -/
inductive GError where
  | InvalidPhase : GError
  | InvalidAttack : GError
  | InvalidBlock : GError
  | InvalidCombatAssignment : GError
  | UnknownCreature : GError
  | NotOver : GError
deriving DecidableEq

/-- Modelled from the spec: the creature handle of the missing
`creature_state.py` / battleground module.  Spec section 6: power,
toughness (integers), tapped (boolean), controlling player, attacking
(boolean), plus the blocking target; mutators tap/untap, mark-attacking,
mark-blocking(target id), clear-combat-role. -/
structure CreatureState where
  power : Int
  toughness : Int
  controlling_player : Nat
  tapped : Bool
  attacking : Bool
  blocking : Option Nat
deriving DecidableEq

/-- Modelled from the spec: `creature.tap()`. -/
def CreatureState.tap (c : CreatureState) : CreatureState :=
  { c with tapped := true }

/-- Modelled from the spec: `creature.untap()`. -/
def CreatureState.untap (c : CreatureState) : CreatureState :=
  { c with tapped := false }

/-- Modelled from the spec: `creature.attack()` marks the creature
attacking. -/
def CreatureState.attack (c : CreatureState) : CreatureState :=
  { c with attacking := true }

/-- Modelled from the spec: `creature.block(target)` marks the creature
as blocking the given attacker. -/
def CreatureState.block (c : CreatureState) (target : Nat) : CreatureState :=
  { c with blocking := some target }

/-- Modelled from the spec: `creature.remove_from_combat()` clears the
combat role (attacking / blocking); it does not change the tapped
state. -/
def CreatureState.remove_from_combat (c : CreatureState) : CreatureState :=
  { c with attacking := false, blocking := none }

/-- Modelled from the spec: the battleground registry of the missing
`battleground_state.py`: a registry of creatures in play keyed by a
unique id, in insertion order (an ordered association list). -/
def Battleground : Type := List (Nat × CreatureState)

instance : DecidableEq Battleground := by
  unfold Battleground
  infer_instance

/-- Modelled from the spec: `battleground[uid]`, lookup of a creature by
id; `none` when absent (the Python dict lookup raises `KeyError`). -/
def Battleground.find (bg : Battleground) (uid : Nat) : Option CreatureState :=
  (List.find? (fun p => p.1 = uid) bg).map Prod.snd

/-- Modelled from the spec: in-place mutation of the creature registered
under `uid` through its handle; a no-op when the id is absent (mutating
a handle of a removed creature does not affect the registry). -/
def Battleground.set (bg : Battleground) (uid : Nat)
    (f : CreatureState → CreatureState) : Battleground :=
  List.map (fun p => if p.1 = uid then (p.1, f p.2) else p) bg

/-- Modelled from the spec: `battleground.remove_creature(uid)` destroys
the creature registered under `uid`. -/
def Battleground.remove_creature (bg : Battleground) (uid : Nat) : Battleground :=
  List.filter (fun p => ¬ p.1 = uid) bg

/-- Modelled from the spec: `battleground.get_creatures(player)`, the
creatures controlled by the given player, in registry order. -/
def Battleground.get_creatures (bg : Battleground) (player : Nat) : Battleground :=
  List.filter (fun p => p.2.controlling_player = player) bg

/-- Modelled from the spec: a Combat Assignment, an ordered mapping from
attacker id to an ordered list of blocker ids. -/
def CombatAssignment : Type := List (Nat × List Nat)

/-- Modelled from the spec: derive the current Combat Assignment from
the in-place attacking/blocking flags: every attacking creature, in
registry order, mapped to the creatures blocking it, in registry
order. -/
def Battleground.get_combat_assignment (bg : Battleground) : CombatAssignment :=
  List.map
    (fun a => (a.1, List.map Prod.fst
        (List.filter (fun b => b.2.blocking = some a.1) bg)))
    (List.filter (fun p => p.2.attacking) bg)

/-- Boolean bag (multiset) equality of two lists, used to model the
order-insensitive parts of `CombatAssignment.is_reorder_of`. -/
def bagEq (l1 l2 : List Nat) : Bool :=
  List.all l1 (fun x => List.count x l1 = List.count x l2) &&
  List.all l2 (fun x => List.count x l1 = List.count x l2)

/-- Lookup of a key in a CombatAssignment. -/
def CombatAssignment.lookup (ca : CombatAssignment) (k : Nat) : Option (List Nat) :=
  (List.find? (fun p => p.1 = k) ca).map Prod.snd

/-- Modelled from the spec: `combat_assignment.is_reorder_of(other)` —
same attacker keys, same blocker set per key, only the order may
change. -/
def CombatAssignment.is_reorder_of (ca other : CombatAssignment) : Bool :=
  bagEq (List.map Prod.fst ca) (List.map Prod.fst other) &&
  List.all ca (fun kv =>
    match CombatAssignment.lookup other kv.1 with
    | some bs => bagEq kv.2 bs
    | none => false)

/-- The game state: two life totals, the active player, the turn phase
and the battleground (translated from `GameState.__init__`; the
underscore prefix of the Python life fields is dropped). -/
structure GameState where
  life1 : Int
  life2 : Int
  active_player : Nat
  phase : Nat
  battleground : Battleground
deriving DecidableEq

/-- A fresh GameState: life 20/20, player 0, DeclareAttackers
(`GameState.__init__`). -/
def GameState.new (bg : Battleground) : GameState :=
  { life1 := 20, life2 := 20, active_player := 0,
    phase := TurnPhase.DeclareAttackers, battleground := bg }

/-- A deep copy (`GameState.copy`); the embedding has value semantics,
so copying is the identity. -/
def GameState.copy (g : GameState) : GameState :=
  { life1 := g.life1, life2 := g.life2, active_player := g.active_player,
    phase := g.phase, battleground := g.battleground }

/-- The attacking player (`GameState.attacking_player`). -/
def GameState.attacking_player (g : GameState) : Nat :=
  g.active_player

/-- The defending player (`GameState.defending_player`). -/
def GameState.defending_player (g : GameState) : Nat :=
  1 - g.active_player

/-- Who acts next (`GameState.next_to_act`). -/
def GameState.next_to_act (g : GameState) : Nat :=
  if g.phase = TurnPhase.DeclareBlockers then g.defending_player
  else g.attacking_player

/-- Is the game over (`GameState.is_over`). -/
def GameState.is_over (g : GameState) : Prop :=
  g.life1 ≤ 0 ∨ g.life2 ≤ 0

instance (g : GameState) : Decidable g.is_over := by
  unfold GameState.is_over
  infer_instance

/-- The outcome of the game (`GameState.outcome`): `NotOver` while both
lives are positive, `Draw` when both are dead, otherwise `Loss` when the
dead player is the one next to act and `Win` otherwise. -/
def GameState.outcome (g : GameState) : Except GError Outcome :=
  if ¬ g.is_over then Except.error GError.NotOver
  else if g.life1 ≤ 0 ∧ g.life2 ≤ 0 then Except.ok Outcome.Draw
  else
    let dead : Nat := if g.life1 ≤ 0 then 0 else 1
    if dead = g.next_to_act then Except.ok Outcome.Loss
    else Except.ok Outcome.Win

/-- Untap every creature of the active player (`GameState.untap`). -/
def GameState.untap (g : GameState) : GameState :=
  let newbg := List.map
    (fun p => if p.2.controlling_player = g.active_player
              then (p.1, p.2.untap) else p)
    g.battleground
  { g with battleground := newbg }

/-- End the turn (`GameState.end_turn`): pass the turn to the other
player, reset the phase, and untap the new active player's
creatures. -/
def GameState.end_turn (g : GameState) : GameState :=
  GameState.untap
    { g with active_player := 1 - g.active_player,
             phase := TurnPhase.DeclareAttackers }

/-- The validity walk of `GameState.is_valid_attack`: looks every id up
(a missing id raises `KeyError`, modelled as `UnknownCreature`), returns
false at the first id that is tapped or not controlled by the attacking
player. -/
def GameState.is_valid_attack (g : GameState) :
    List Nat → Except GError Bool
  | [] => Except.ok true
  | uid :: rest =>
    match g.battleground.find uid with
    | none => Except.error GError.UnknownCreature
    | some c =>
      if c.tapped then Except.ok false
      else if ¬ c.controlling_player = g.attacking_player then Except.ok false
      else GameState.is_valid_attack g rest

/-- Mark every declared attacker attacking and tapped, in order
(the mutation loop of `GameState.declare_attackers`). -/
def markAttackers (bg : Battleground) : List Nat → Battleground
  | [] => bg
  | uid :: rest =>
      markAttackers (Battleground.set bg uid
        (fun c => (CreatureState.attack c).tap)) rest

/-- Declare attackers (`GameState.declare_attackers`): phase check,
validity check, then either mark and tap each attacker and advance to
DeclareBlockers, or — for an empty declaration — end the turn at
once. -/
def GameState.declare_attackers (g : GameState) (uids : List Nat) :
    Except GError GameState :=
  if ¬ g.phase = TurnPhase.DeclareAttackers then Except.error GError.InvalidPhase
  else
    match g.is_valid_attack uids with
    | Except.error e => Except.error e
    | Except.ok false => Except.error GError.InvalidAttack
    | Except.ok true =>
      if ¬ uids = [] then
        Except.ok { g with battleground := markAttackers g.battleground uids,
                           phase := TurnPhase.DeclareBlockers }
      else
        Except.ok g.end_turn

/-- The validity walk of `GameState.is_valid_block`: looks both ids of
every pair up, returns false at the first pair whose blocker is tapped
or not controlled by the defending player, or whose blocked creature is
not attacking. -/
def GameState.is_valid_block (g : GameState) :
    List (Nat × Nat) → Except GError Bool
  | [] => Except.ok true
  | (blocker_uid, blocked_uid) :: rest =>
    match g.battleground.find blocker_uid with
    | none => Except.error GError.UnknownCreature
    | some blocker =>
      match g.battleground.find blocked_uid with
      | none => Except.error GError.UnknownCreature
      | some blocked =>
        if blocker.tapped then Except.ok false
        else if ¬ blocker.controlling_player = g.defending_player then
          Except.ok false
        else if ¬ blocked.attacking then Except.ok false
        else GameState.is_valid_block g rest

/-- Mark every blocker as blocking its target, in order (the mutation
loop of `GameState.declare_blockers`). -/
def markBlockers (bg : Battleground) : List (Nat × Nat) → Battleground
  | [] => bg
  | (blocker_uid, blocked_uid) :: rest =>
      markBlockers (Battleground.set bg blocker_uid
        (fun c => c.block blocked_uid)) rest

/-- Declare blockers (`GameState.declare_blockers`): phase check,
validity check, then mark each blocker and advance to CombatStep.  The
Python `None` default stands for the empty assignment. -/
def GameState.declare_blockers (g : GameState)
    (assignment : List (Nat × Nat)) : Except GError GameState :=
  if ¬ g.phase = TurnPhase.DeclareBlockers then Except.error GError.InvalidPhase
  else
    match g.is_valid_block assignment with
    | Except.error e => Except.error e
    | Except.ok false => Except.error GError.InvalidBlock
    | Except.ok true =>
      Except.ok { g with battleground := markBlockers g.battleground assignment,
                         phase := TurnPhase.CombatStep }

/-- Look all the ids of a list up, in order, failing at the first id
missing from the battleground. -/
def lookupAll (bg : Battleground) :
    List Nat → Except GError (List CreatureState)
  | [] => Except.ok []
  | uid :: rest =>
    match bg.find uid with
    | none => Except.error GError.UnknownCreature
    | some c =>
      match lookupAll bg rest with
      | Except.error e => Except.error e
      | Except.ok cs => Except.ok (c :: cs)

/-- The ordered damage walk of `_resolve_blocked_attacker`: remove each
blocker in order while the remaining attacking damage covers its
toughness; stop at the first blocker it does not cover. -/
def damageWalk (bg : Battleground) (dmg : Int) :
    List (Nat × CreatureState) → Battleground
  | [] => bg
  | (uid, b) :: rest =>
    if dmg ≥ b.toughness then
      damageWalk (bg.remove_creature uid) (dmg - b.toughness) rest
    else bg

/-- Clear the combat role of every listed creature still in play (the
trailing `remove_from_combat` loop of `_resolve_blocked_attacker`;
handles of removed creatures mutate nothing). -/
def clearAll (bg : Battleground) : List Nat → Battleground
  | [] => bg
  | uid :: rest =>
      clearAll (Battleground.set bg uid CreatureState.remove_from_combat) rest

/-- Resolve one unblocked attacker (`_resolve_unblocked_attacker`):
subtract its full power from the defending player's life and clear its
combat role. -/
def GameState.resolve_unblocked_attacker (g : GameState)
    (attacker_uid : Nat) : Except GError GameState :=
  match g.battleground.find attacker_uid with
  | none => Except.error GError.UnknownCreature
  | some attacking_creature =>
    let g1 :=
      if g.defending_player = 0 then
        { g with life1 := g.life1 - attacking_creature.power }
      else
        { g with life2 := g.life2 - attacking_creature.power }
    let newbg := Battleground.set g1.battleground attacker_uid
      CreatureState.remove_from_combat
    Except.ok { g1 with battleground := newbg }

/-- Resolve one blocked attacker (`_resolve_blocked_attacker`): capture
the blockers' states, walk the ordered blocker list dealing sequential
lethal damage, then destroy the attacker when the blockers' pooled power
covers its toughness, and clear every survivor's combat role. -/
def GameState.resolve_blocked_attacker (g : GameState)
    (attacker_uid : Nat) (blocker_uids : List Nat) :
    Except GError GameState :=
  match g.battleground.find attacker_uid with
  | none => Except.error GError.UnknownCreature
  | some attacking_creature =>
    match lookupAll g.battleground blocker_uids with
    | Except.error e => Except.error e
    | Except.ok blockers =>
      let blockers_total_damage : Int := (List.map CreatureState.power blockers).sum
      let bg1 := damageWalk g.battleground attacking_creature.power
          (List.zip blocker_uids blockers)
      let bg2 :=
        if blockers_total_damage ≥ attacking_creature.toughness then
          bg1.remove_creature attacker_uid
        else bg1
      let bg3 := Battleground.set bg2 attacker_uid
          CreatureState.remove_from_combat
      Except.ok { g with battleground := clearAll bg3 blocker_uids }

/-- The attacker loop of `resolve_combat`: resolve every entry of the
combat assignment, blocked or unblocked. -/
def GameState.resolve_items (g : GameState) :
    List (Nat × List Nat) → Except GError GameState
  | [] => Except.ok g
  | (attacker_uid, blocker_uids) :: rest =>
    match (if ¬ blocker_uids = [] then
             g.resolve_blocked_attacker attacker_uid blocker_uids
           else
             g.resolve_unblocked_attacker attacker_uid) with
    | Except.error e => Except.error e
    | Except.ok g1 => GameState.resolve_items g1 rest

/-- Resolve combat (`GameState.resolve_combat`): phase check, then — if
an explicit assignment is supplied — check it is a reordering of the
derived one, resolve every attacker, and end the turn. -/
def GameState.resolve_combat (g : GameState)
    (combat_assignment : Option CombatAssignment) :
    Except GError GameState :=
  if ¬ g.phase = TurnPhase.CombatStep then Except.error GError.InvalidPhase
  else
    let current := g.battleground.get_combat_assignment
    match combat_assignment with
    | none =>
      match g.resolve_items current with
      | Except.error e => Except.error e
      | Except.ok g1 => Except.ok g1.end_turn
    | some ca =>
      if ¬ ca.is_reorder_of current then
        Except.error GError.InvalidCombatAssignment
      else
        match g.resolve_items ca with
        | Except.error e => Except.error e
        | Except.ok g1 => Except.ok g1.end_turn

/-! ### Basic lemmas about the battleground registry -/

theorem Battleground.find_set (bg : Battleground) (uid v : Nat)
    (f : CreatureState → CreatureState) :
    (bg.set uid f).find v =
      if v = uid then Option.map f (bg.find v) else bg.find v := by
  induction bg with
  | nil => simp [Battleground.find, Battleground.set]
  | cons p rest ih =>
    simp only [Battleground.set, Battleground.find, List.map_cons, List.find?_cons] at *
    by_cases h1 : p.1 = uid <;> by_cases h2 : p.1 = v <;>
      simp_all [List.find?_cons] <;> (try split) <;> simp_all

theorem Battleground.find_remove (bg : Battleground) (uid v : Nat) :
    (bg.remove_creature uid).find v =
      if v = uid then none else bg.find v := by
  induction bg with
  | nil => simp [Battleground.find, Battleground.remove_creature]
  | cons p rest ih =>
    simp only [Battleground.remove_creature, Battleground.find, List.filter_cons] at *
    by_cases h1 : p.1 = uid <;> by_cases h2 : p.1 = v <;>
      simp_all [List.find?_cons]

/-- The ids removed by the damage walk: each blocker in order while the
remaining damage covers its toughness. -/
def killedBy (dmg : Int) : List (Nat × CreatureState) → List Nat
  | [] => []
  | (uid, b) :: rest =>
    if dmg ≥ b.toughness then uid :: killedBy (dmg - b.toughness) rest
    else []

theorem damageWalk_find (pairs : List (Nat × CreatureState))
    (bg : Battleground) (dmg : Int) (v : Nat) :
    (damageWalk bg dmg pairs).find v =
      if v ∈ killedBy dmg pairs then none else bg.find v := by
  induction pairs generalizing bg dmg with
  | nil => simp [damageWalk, killedBy]
  | cons p rest ih =>
    obtain ⟨uid, b⟩ := p
    by_cases hds : dmg ≥ b.toughness
    · have hw : damageWalk bg dmg ((uid, b) :: rest) =
          damageWalk (bg.remove_creature uid) (dmg - b.toughness) rest := by
        simp [damageWalk, hds]
      have hk : killedBy dmg ((uid, b) :: rest) =
          uid :: killedBy (dmg - b.toughness) rest := by
        simp [killedBy, hds]
      rw [hw, hk, ih, Battleground.find_remove]
      by_cases hv : v ∈ killedBy (dmg - b.toughness) rest <;>
        by_cases hvu : v = uid <;> simp_all
    · have hw : damageWalk bg dmg ((uid, b) :: rest) = bg := by
        simp [damageWalk, hds]
      have hk : killedBy dmg ((uid, b) :: rest) = [] := by
        simp [killedBy, hds]
      rw [hw, hk]
      simp

theorem clearAll_find (uids : List Nat) (bg : Battleground) (v : Nat) :
    (clearAll bg uids).find v =
      if v ∈ uids then
        Option.map CreatureState.remove_from_combat (bg.find v)
      else bg.find v := by
  induction uids generalizing bg with
  | nil => simp [clearAll]
  | cons u rest ih =>
    simp only [clearAll]
    rw [ih, Battleground.find_set]
    by_cases hv : v ∈ rest <;> by_cases hvu : v = u <;>
      simp_all
    cases bg.find u <;>
      simp [CreatureState.remove_from_combat]

theorem lookupAll_length (bg : Battleground) (uids : List Nat)
    (cs : List CreatureState) (h : lookupAll bg uids = Except.ok cs) :
    cs.length = uids.length := by
  induction uids generalizing cs with
  | nil =>
    simp only [lookupAll] at h
    cases h
    rfl
  | cons u rest ih =>
    simp only [lookupAll] at h
    cases hf : bg.find u with
    | none => rw [hf] at h; cases h
    | some c =>
      rw [hf] at h
      cases hr : lookupAll bg rest with
      | error e => rw [hr] at h; cases h
      | ok cs0 =>
        rw [hr] at h
        cases h
        simp [ih cs0 hr]

theorem lookupAll_append (bg : Battleground) (l1 l2 : List Nat)
    (c1 c2 : List CreatureState)
    (h1 : lookupAll bg l1 = Except.ok c1)
    (h2 : lookupAll bg l2 = Except.ok c2) :
    lookupAll bg (l1 ++ l2) = Except.ok (c1 ++ c2) := by
  induction l1 generalizing c1 with
  | nil =>
    simp only [lookupAll] at h1
    cases h1
    simpa using h2
  | cons u rest ih =>
    simp only [lookupAll] at h1
    cases hf : bg.find u with
    | none => rw [hf] at h1; cases h1
    | some c =>
      rw [hf] at h1
      cases hr : lookupAll bg rest with
      | error e => rw [hr] at h1; cases h1
      | ok cs0 =>
        rw [hr] at h1
        cases h1
        simp [lookupAll, hf, List.cons_append, ih cs0 hr]

/-- A placeholder creature used only as the default of `Option.getD`. -/
def someCreature : CreatureState :=
  { power := 0, toughness := 0, controlling_player := 0,
    tapped := false, attacking := false, blocking := none }

theorem lookupAll_eq_map (bg : Battleground) (uids : List Nat)
    (cs : List CreatureState) (h : lookupAll bg uids = Except.ok cs) :
    cs = List.map (fun u => (bg.find u).getD someCreature) uids := by
  induction uids generalizing cs with
  | nil =>
    simp only [lookupAll] at h
    cases h
    rfl
  | cons u rest ih =>
    simp only [lookupAll] at h
    cases hf : bg.find u with
    | none => rw [hf] at h; cases h
    | some c =>
      rw [hf] at h
      cases hr : lookupAll bg rest with
      | error e => rw [hr] at h; cases h
      | ok cs0 =>
        rw [hr] at h
        cases h
        simp [hf, ih cs0 hr]

/-- The battleground produced by a successful
`resolve_blocked_attacker` call, written out as a single expression. -/
def blockedResultBg (bg : Battleground) (auid : Nat) (buids : List Nat)
    (atk : CreatureState) (bs : List CreatureState) : Battleground :=
  let bg1 := damageWalk bg atk.power (List.zip buids bs)
  let bg2 :=
    if (List.map CreatureState.power bs).sum ≥ atk.toughness then
      bg1.remove_creature auid
    else bg1
  clearAll (Battleground.set bg2 auid CreatureState.remove_from_combat) buids

/-- Unfolding of `resolve_blocked_attacker` once both lookups
succeed. -/
theorem resolve_blocked_eq (g : GameState) (auid : Nat)
    (buids : List Nat) (atk : CreatureState) (bs : List CreatureState)
    (hatk : g.battleground.find auid = some atk)
    (hbs : lookupAll g.battleground buids = Except.ok bs) :
    g.resolve_blocked_attacker auid buids =
      Except.ok { g with battleground := blockedResultBg g.battleground auid buids atk bs } := by
  simp only [GameState.resolve_blocked_attacker, hatk, hbs, blockedResultBg]

/-! ### Claim C1: the ordered blocker damage walk -/

/-- The spec's walk condition: every blocker of the list, in order, has
its toughness covered by the running remaining damage. -/
def allLethal (dmg : Int) : List CreatureState → Bool
  | [] => true
  | b :: rest => decide (dmg ≥ b.toughness) && allLethal (dmg - b.toughness) rest

/-- The running remaining damage after subtracting the toughness of
every blocker of the list. -/
def remainingAfter (dmg : Int) : List CreatureState → Int
  | [] => dmg
  | b :: rest => remainingAfter (dmg - b.toughness) rest

theorem killedBy_append (dmg : Int) (dp sp : List (Nat × CreatureState))
    (hl : allLethal dmg (List.map Prod.snd dp) = true)
    (hstop : ∀ p ps, sp = p :: ps →
      remainingAfter dmg (List.map Prod.snd dp) < p.2.toughness) :
    killedBy dmg (dp ++ sp) = List.map Prod.fst dp := by
  induction dp generalizing dmg with
  | nil =>
    cases sp with
    | nil => simp [killedBy]
    | cons p ps =>
      obtain ⟨uid, b⟩ := p
      have hp := hstop (uid, b) ps rfl
      simp only [remainingAfter, List.map_nil] at hp
      simp only [List.nil_append, killedBy, List.map_nil]
      rw [if_neg (by omega)]
  | cons q dp' ih =>
    obtain ⟨uid, b⟩ := q
    simp only [List.map_cons, allLethal, Bool.and_eq_true, decide_eq_true_eq] at hl
    simp only [List.cons_append, killedBy, List.map_cons, List.append_eq]
    rw [if_pos hl.1, ih (dmg - b.toughness) hl.2]
    intro p ps hps
    have := hstop p ps hps
    simpa [remainingAfter] using this

/-- Claim C1: for every attacker with a non-empty ordered blocker list,
the blockers are processed left-to-right with a running remaining damage
initialized to the attacker's power: each blocker whose toughness is
covered by the remaining damage is removed from play (its toughness
being subtracted from the remaining damage), the first blocker whose
toughness exceeds the remaining damage stops the walk, and that blocker
and every later blocker survive untouched (their creature state is
unchanged apart from the combat role being cleared at the end of
resolution). -/
theorem c1_blocked_walk (g : GameState) (auid : Nat)
    (dUids sUids : List Nat) (atk : CreatureState)
    (dCs sCs : List CreatureState) (g' : GameState)
    (hne : ¬ (dUids ++ sUids) = [])
    (hatk : g.battleground.find auid = some atk)
    (hd : lookupAll g.battleground dUids = Except.ok dCs)
    (hs : lookupAll g.battleground sUids = Except.ok sCs)
    (hlethal : allLethal atk.power dCs = true)
    (hstop : ∀ c cs, sCs = c :: cs → remainingAfter atk.power dCs < c.toughness)
    (hnd : (dUids ++ sUids).Nodup)
    (hna : ¬ auid ∈ dUids ++ sUids)
    (hrun : g.resolve_blocked_attacker auid (dUids ++ sUids) = Except.ok g') :
    (∀ u ∈ dUids, g'.battleground.find u = none) ∧
    (∀ u ∈ sUids, g'.battleground.find u =
        Option.map CreatureState.remove_from_combat (g.battleground.find u)) := by
  have hbs := lookupAll_append g.battleground dUids sUids dCs sCs hd hs
  rw [resolve_blocked_eq g auid (dUids ++ sUids) atk (dCs ++ sCs) hatk hbs] at hrun
  have hg' : g'.battleground =
      blockedResultBg g.battleground auid (dUids ++ sUids) atk (dCs ++ sCs) := by
    injection hrun with h
    rw [← h]
  have hld : dCs.length = dUids.length := lookupAll_length g.battleground dUids dCs hd
  have hls : sCs.length = sUids.length := lookupAll_length g.battleground sUids sCs hs
  have hzip : List.zip (dUids ++ sUids) (dCs ++ sCs) =
      List.zip dUids dCs ++ List.zip sUids sCs := List.zip_append hld.symm
  have hsndd : List.map Prod.snd (List.zip dUids dCs) = dCs :=
    List.map_snd_zip dUids dCs (le_of_eq hld)
  have hfstd : List.map Prod.fst (List.zip dUids dCs) = dUids :=
    List.map_fst_zip dUids dCs (le_of_eq hld.symm)
  have hkilled : killedBy atk.power (List.zip (dUids ++ sUids) (dCs ++ sCs)) = dUids := by
    rw [hzip]
    rw [killedBy_append atk.power (List.zip dUids dCs) (List.zip sUids sCs)
      (by rw [hsndd]; exact hlethal) ?stop, hfstd]
    case stop =>
      intro p ps hps
      rw [hsndd]
      cases sUids with
      | nil =>
        simp at hps
      | cons u su' =>
        cases sCs with
        | nil => simp at hls
        | cons c cs' =>
          simp only [List.zip_cons_cons] at hps
          cases hps
          exact hstop c cs' rfl
  have hdisj : ∀ u, u ∈ sUids → ¬ u ∈ dUids := by
    intro u hu hd'
    rw [List.nodup_append] at hnd
    exact hnd.2.2 hd' hu
  constructor
  · intro u hu
    have hu' : u ∈ dUids ++ sUids := List.mem_append.mpr (Or.inl hu)
    have hne' : ¬ u = auid := by
      intro h
      exact hna (h ▸ hu')
    rw [hg']
    simp only [blockedResultBg]
    rw [clearAll_find, if_pos hu', Battleground.find_set, if_neg hne']
    have hwalk : (damageWalk g.battleground atk.power
        (List.zip (dUids ++ sUids) (dCs ++ sCs))).find u = none := by
      rw [damageWalk_find, if_pos (by rw [hkilled]; exact hu)]
    split
    · rw [Battleground.find_remove, if_neg hne', hwalk]
      rfl
    · rw [hwalk]
      rfl
  · intro u hu
    have hu' : u ∈ dUids ++ sUids := List.mem_append.mpr (Or.inr hu)
    have hne' : ¬ u = auid := by
      intro h
      exact hna (h ▸ hu')
    rw [hg']
    simp only [blockedResultBg]
    rw [clearAll_find, if_pos hu', Battleground.find_set, if_neg hne']
    have hwalk : (damageWalk g.battleground atk.power
        (List.zip (dUids ++ sUids) (dCs ++ sCs))).find u = g.battleground.find u := by
      rw [damageWalk_find, if_neg (by rw [hkilled]; exact hdisj u hu)]
    split
    · rw [Battleground.find_remove, if_neg hne', hwalk]
    · rw [hwalk]

/-- Decidable equality for `Except`, used to evaluate the operations on
concrete states in witnesses. -/
instance {e a : Type} [DecidableEq e] [DecidableEq a] :
    DecidableEq (Except e a) := fun x y =>
  match x, y with
  | Except.error u, Except.error v =>
    if h : u = v then isTrue (by rw [h])
    else isFalse (by intro hc; cases hc; exact h rfl)
  | Except.error _, Except.ok _ => isFalse (by intro hc; cases hc)
  | Except.ok _, Except.error _ => isFalse (by intro hc; cases hc)
  | Except.ok u, Except.ok v =>
    if h : u = v then isTrue (by rw [h])
    else isFalse (by intro hc; cases hc; exact h rfl)

/-- The spec scenario's attacker: a 5/5, attacking and tapped. -/
def exAtk : CreatureState :=
  { power := 5, toughness := 5, controlling_player := 0,
    tapped := true, attacking := true, blocking := none }

/-- First blocker of the scenario: a 1/3 blocking creature 0. -/
def exB1 : CreatureState :=
  { power := 1, toughness := 3, controlling_player := 1,
    tapped := false, attacking := false, blocking := some 0 }

/-- Second blocker of the scenario: a 1/3 blocking creature 0. -/
def exB2 : CreatureState :=
  { power := 1, toughness := 3, controlling_player := 1,
    tapped := false, attacking := false, blocking := some 0 }

/-- The scenario state: CombatStep, attacker 0 blocked by 1 and 2. -/
def exG : GameState :=
  { life1 := 20, life2 := 20, active_player := 0, phase := 2,
    battleground := [(0, exAtk), (1, exB1), (2, exB2)] }

/-- Result of resolving attacker 0 of `exG` with blocker order [1, 2]:
blocker 1 dies, blocker 2 survives, the attacker survives. -/
def exG1 : GameState :=
  { life1 := 20, life2 := 20, active_player := 0, phase := 2,
    battleground :=
      [(0, { exAtk with attacking := false }),
       (2, { exB2 with blocking := none })] }

/-- Result of resolving attacker 0 of `exG` with blocker order [2, 1]:
blocker 2 dies, blocker 1 survives, the attacker survives. -/
def exG2 : GameState :=
  { life1 := 20, life2 := 20, active_player := 0, phase := 2,
    battleground :=
      [(0, { exAtk with attacking := false }),
       (1, { exB1 with blocking := none })] }

/-- Witness for C1: attacker power 5 against blockers of toughness
[3, 3] — the first blocker dies, the second survives untouched. -/
theorem c1_blocked_walk_witness :
    (∀ u ∈ ([1] : List Nat), exG1.battleground.find u = none) ∧
    (∀ u ∈ ([2] : List Nat), exG1.battleground.find u =
        Option.map CreatureState.remove_from_combat (exG.battleground.find u)) :=
  c1_blocked_walk exG 0 [1] [2] exAtk [exB1] [exB2] exG1
    (by decide) (by decide) (by decide) (by decide) (by decide)
    (by
      intro c cs h
      injection h with h1 h2
      subst h1
      decide)
    (by decide) (by decide) (by decide)

/-- Claim C2: resolving a blocked attacker never changes either
player's life total, no matter how much the attacker's power exceeds
the blockers' total toughness. -/
theorem c2_blocked_life_frame (g : GameState) (auid : Nat)
    (buids : List Nat) (g' : GameState)
    (hne : ¬ buids = [])
    (hrun : g.resolve_blocked_attacker auid buids = Except.ok g') :
    g'.life1 = g.life1 ∧ g'.life2 = g.life2 := by
  cases hf : g.battleground.find auid with
  | none =>
    simp only [GameState.resolve_blocked_attacker, hf] at hrun
    cases hrun
  | some atk =>
    cases hbs : lookupAll g.battleground buids with
    | error e =>
      simp only [GameState.resolve_blocked_attacker, hf, hbs] at hrun
      cases hrun
    | ok bs =>
      rw [resolve_blocked_eq g auid buids atk bs hf hbs] at hrun
      injection hrun with h
      rw [← h]
      exact ⟨rfl, rfl⟩

/-- Witness for C2 at the scenario state. -/
theorem c2_blocked_life_frame_witness :
    exG1.life1 = exG.life1 ∧ exG1.life2 = exG.life2 :=
  c2_blocked_life_frame exG 0 [1, 2] exG1 (by decide) (by decide)

theorem killedBy_subset (dmg : Int) (pairs : List (Nat × CreatureState)) :
    ∀ u ∈ killedBy dmg pairs, u ∈ List.map Prod.fst pairs := by
  induction pairs generalizing dmg with
  | nil => simp [killedBy]
  | cons p rest ih =>
    obtain ⟨uid, b⟩ := p
    intro u hu
    simp only [killedBy] at hu
    by_cases hds : dmg ≥ b.toughness
    · rw [if_pos hds] at hu
      rcases List.mem_cons.mp hu with h | h
      · simp [h]
      · exact List.mem_cons_of_mem _ (ih (dmg - b.toughness) u h)
    · rw [if_neg hds] at hu
      cases hu

/-- After a successful blocked resolution, the attacker is gone from
play exactly when the blockers' pooled power covers its toughness. -/
theorem blocked_attacker_removed_iff (g : GameState) (auid : Nat)
    (buids : List Nat) (atk : CreatureState) (bs : List CreatureState)
    (g' : GameState)
    (hatk : g.battleground.find auid = some atk)
    (hbs : lookupAll g.battleground buids = Except.ok bs)
    (hna : ¬ auid ∈ buids)
    (hrun : g.resolve_blocked_attacker auid buids = Except.ok g') :
    (g'.battleground.find auid = none ↔
      (List.map CreatureState.power bs).sum ≥ atk.toughness) := by
  rw [resolve_blocked_eq g auid buids atk bs hatk hbs] at hrun
  injection hrun with h
  rw [← h]
  simp only [blockedResultBg]
  rw [clearAll_find, if_neg hna, Battleground.find_set, if_pos rfl]
  have hwalk : (damageWalk g.battleground atk.power
      (List.zip buids bs)).find auid = some atk := by
    rw [damageWalk_find, if_neg, hatk]
    intro hmem
    have h1 := killedBy_subset atk.power (List.zip buids bs) auid hmem
    obtain ⟨p, hp, hpe⟩ := List.mem_map.mp h1
    exact hna (hpe ▸ (List.of_mem_zip hp).1)
  by_cases hc : (List.map CreatureState.power bs).sum ≥ atk.toughness
  · rw [if_pos hc, Battleground.find_remove, if_pos rfl]
    simp [hc]
  · rw [if_neg hc, hwalk]
    simp [hc]

/-- Claim C3: a blocked attacker is removed from play iff the sum of
the powers of all its blockers (taken over the whole list, before any
removal) reaches its toughness, and this outcome is identical for every
ordering of the same blockers. -/
theorem c3_attacker_fate (g : GameState) (auid : Nat)
    (buids buids2 : List Nat) (atk : CreatureState)
    (bs : List CreatureState) (g1 g2 : GameState)
    (hatk : g.battleground.find auid = some atk)
    (hbs : lookupAll g.battleground buids = Except.ok bs)
    (hna : ¬ auid ∈ buids) (hna2 : ¬ auid ∈ buids2)
    (hperm : List.Perm buids2 buids)
    (h1 : g.resolve_blocked_attacker auid buids = Except.ok g1)
    (h2 : g.resolve_blocked_attacker auid buids2 = Except.ok g2) :
    (g1.battleground.find auid = none ↔
      (List.map CreatureState.power bs).sum ≥ atk.toughness) ∧
    (g2.battleground.find auid = none ↔ g1.battleground.find auid = none) := by
  have hiff1 := blocked_attacker_removed_iff g auid buids atk bs g1 hatk hbs hna h1
  cases hbs2 : lookupAll g.battleground buids2 with
  | error e =>
    simp only [GameState.resolve_blocked_attacker, hatk, hbs2] at h2
    cases h2
  | ok bs2 =>
    have hiff2 := blocked_attacker_removed_iff g auid buids2 atk bs2 g2 hatk hbs2 hna2 h2
    have hmap := lookupAll_eq_map g.battleground buids bs hbs
    have hmap2 := lookupAll_eq_map g.battleground buids2 bs2 hbs2
    have hsum : (List.map CreatureState.power bs2).sum =
        (List.map CreatureState.power bs).sum := by
      rw [hmap, hmap2, List.map_map, List.map_map]
      exact List.Perm.sum_eq (List.Perm.map _ hperm)
    constructor
    · exact hiff1
    · rw [hiff1, hiff2, hsum]

/-- Witness for C3: with pooled blocker power 2 against toughness 5 the
attacker survives under both blocker orders. -/
theorem c3_attacker_fate_witness :
    (exG1.battleground.find 0 = none ↔
      (List.map CreatureState.power [exB1, exB2]).sum ≥ exAtk.toughness) ∧
    (exG2.battleground.find 0 = none ↔ exG1.battleground.find 0 = none) :=
  c3_attacker_fate exG 0 [1, 2] [2, 1] exAtk [exB1, exB2] exG1 exG2
    (by decide) (by decide) (by decide) (by decide) (by decide)
    (by decide) (by decide)

/-! ### Claims C4 and C5: unblocked damage and the empty-attack shortcut -/

theorem find_untapList (bg : Battleground) (ap v : Nat) :
    Battleground.find
      (List.map (fun p => if p.2.controlling_player = ap then (p.1, p.2.untap) else p) bg) v
    = Option.map (fun c => if c.controlling_player = ap then c.untap else c)
        (bg.find v) := by
  induction bg with
  | nil => simp [Battleground.find]
  | cons p rest ih =>
    simp only [Battleground.find, List.map_cons, List.find?_cons] at *
    by_cases h1 : p.2.controlling_player = ap <;> by_cases h2 : p.1 = v <;>
      simp_all [List.find?_cons]

theorem end_turn_find (g : GameState) (v : Nat) :
    g.end_turn.battleground.find v = Option.map
      (fun c => if c.controlling_player = 1 - g.active_player then c.untap else c)
      (g.battleground.find v) := by
  simp only [GameState.end_turn, GameState.untap]
  exact find_untapList g.battleground (1 - g.active_player) v

/-- The 4/4 creature of the unblocked-attack scenario. -/
def exC44 : CreatureState :=
  { power := 4, toughness := 4, controlling_player := 0,
    tapped := false, attacking := false, blocking := none }

/-- The scenario start: a fresh game whose battleground holds only the
4/4 creature of player 0. -/
def exScn0 : GameState := GameState.new [(0, exC44)]

/-- The scenario after declaring the attack: the creature is attacking
and tapped, phase DeclareBlockers. -/
def exScn1 : GameState :=
  { life1 := 20, life2 := 20, active_player := 0, phase := 1,
    battleground := [(0, { exC44 with tapped := true, attacking := true })] }

/-- The scenario after declaring no blockers: phase CombatStep. -/
def exScn2 : GameState :=
  { life1 := 20, life2 := 20, active_player := 0, phase := 2,
    battleground := [(0, { exC44 with tapped := true, attacking := true })] }

/-- The scenario after resolving combat: life2 = 16, the turn passed to
player 1, the creature still tapped and in play with its combat role
cleared. -/
def exScn3 : GameState :=
  { life1 := 20, life2 := 16, active_player := 1, phase := 0,
    battleground := [(0, { exC44 with tapped := true })] }

/-- The state produced by a successful `resolve_unblocked_attacker`
call, written out as a single expression. -/
def unblockedResult (g : GameState) (uid : Nat) (c : CreatureState) : GameState :=
  let nbg := Battleground.set g.battleground uid CreatureState.remove_from_combat
  if g.defending_player = 0 then
    { g with life1 := g.life1 - c.power, battleground := nbg }
  else
    { g with life2 := g.life2 - c.power, battleground := nbg }

/-- Unfolding of `resolve_unblocked_attacker` once the lookup
succeeds. -/
theorem resolve_unblocked_eq (g : GameState) (uid : Nat)
    (c : CreatureState) (hf : g.battleground.find uid = some c) :
    g.resolve_unblocked_attacker uid = Except.ok (unblockedResult g uid c) := by
  simp only [GameState.resolve_unblocked_attacker, hf, unblockedResult]
  by_cases hdp : g.defending_player = 0 <;> simp [hdp]

/-- Claim C4: resolving an unblocked attacker subtracts exactly its
power from the defending player's life (life1 when the defender is
player 0, life2 otherwise), leaves the attacking player's life, the
active player and the phase unchanged, and leaves the attacker in play,
tapped as before, with its combat role cleared; and the concrete
scenario — life 20/20, player 0 attacks unblocked with a 4/4 — ends
with life1 = 20, life2 = 16, active player 1, phase
DeclareAttackers. -/
theorem c4_unblocked (g : GameState) (uid : Nat) (c : CreatureState)
    (g' : GameState)
    (hf : g.battleground.find uid = some c)
    (hrun : g.resolve_unblocked_attacker uid = Except.ok g') :
    ((g.defending_player = 0 →
        g'.life1 = g.life1 - c.power ∧ g'.life2 = g.life2) ∧
     (¬ g.defending_player = 0 →
        g'.life2 = g.life2 - c.power ∧ g'.life1 = g.life1) ∧
     g'.active_player = g.active_player ∧ g'.phase = g.phase ∧
     g'.battleground.find uid = some c.remove_from_combat ∧
     c.remove_from_combat.tapped = c.tapped) ∧
    (exScn0.declare_attackers [0] = Except.ok exScn1 ∧
     exScn1.declare_blockers [] = Except.ok exScn2 ∧
     exScn2.resolve_combat none = Except.ok exScn3 ∧
     exScn3.life1 = 20 ∧ exScn3.life2 = 16 ∧
     exScn3.active_player = 1 ∧
     exScn3.phase = TurnPhase.DeclareAttackers) := by
  constructor
  · rw [resolve_unblocked_eq g uid c hf] at hrun
    injection hrun with h
    rw [← h]
    by_cases hdp : g.defending_player = 0
    · have hval : unblockedResult g uid c = { g with life1 := g.life1 - c.power, battleground := Battleground.set g.battleground uid CreatureState.remove_from_combat } := by
        simp only [unblockedResult]
        rw [if_pos hdp]
      rw [hval]
      refine ⟨fun _ => ⟨rfl, rfl⟩, fun hc => absurd hdp hc, rfl, rfl, ?_, rfl⟩
      rw [Battleground.find_set, if_pos rfl, hf]
      rfl
    · have hval : unblockedResult g uid c = { g with life2 := g.life2 - c.power, battleground := Battleground.set g.battleground uid CreatureState.remove_from_combat } := by
        simp only [unblockedResult]
        rw [if_neg hdp]
      rw [hval]
      refine ⟨fun hc => absurd hc hdp, fun _ => ⟨rfl, rfl⟩, rfl, rfl, ?_, rfl⟩
      rw [Battleground.find_set, if_pos rfl, hf]
      rfl
  · exact ⟨by decide, by decide, by decide, rfl, rfl, rfl, rfl⟩

/-- The 4/4 creature while attacking (tapped). -/
def exC44attacking : CreatureState :=
  { exC44 with tapped := true, attacking := true }

/-- The state right after `resolve_unblocked_attacker` inside the
scenario's combat step (before the turn ends). -/
def exScn3pre : GameState :=
  { life1 := 20, life2 := 16, active_player := 0, phase := 2,
    battleground := [(0, { exC44 with tapped := true })] }

/-- Witness for C4 at the scenario's combat step: resolving the
unblocked 4/4 attacker against defender 1. -/
theorem c4_unblocked_witness :
    ((exScn2.defending_player = 0 →
        exScn3pre.life1 = exScn2.life1 - exC44attacking.power ∧
        exScn3pre.life2 = exScn2.life2) ∧
     (¬ exScn2.defending_player = 0 →
        exScn3pre.life2 = exScn2.life2 - exC44attacking.power ∧
        exScn3pre.life1 = exScn2.life1) ∧
     exScn3pre.active_player = exScn2.active_player ∧
     exScn3pre.phase = exScn2.phase ∧
     exScn3pre.battleground.find 0 = some exC44attacking.remove_from_combat ∧
     exC44attacking.remove_from_combat.tapped = exC44attacking.tapped) ∧
    (exScn0.declare_attackers [0] = Except.ok exScn1 ∧
     exScn1.declare_blockers [] = Except.ok exScn2 ∧
     exScn2.resolve_combat none = Except.ok exScn3 ∧
     exScn3.life1 = 20 ∧ exScn3.life2 = 16 ∧
     exScn3.active_player = 1 ∧
     exScn3.phase = TurnPhase.DeclareAttackers) :=
  c4_unblocked exScn2 0 exC44attacking exScn3pre (by decide) (by decide)

/-- Claim C5: declaring an empty set of attackers ends the turn at
once — the phase goes straight back to DeclareAttackers (never through
DeclareBlockers or CombatStep), the active player is swapped, the life
totals are untouched, and every creature of the new active player is
untapped while the other creatures keep their tapped state. -/
theorem c5_empty_attack_ends_turn (g : GameState)
    (h : g.phase = TurnPhase.DeclareAttackers) :
    g.declare_attackers [] = Except.ok g.end_turn ∧
    g.end_turn.phase = TurnPhase.DeclareAttackers ∧
    g.end_turn.active_player = 1 - g.active_player ∧
    g.end_turn.life1 = g.life1 ∧ g.end_turn.life2 = g.life2 ∧
    (∀ uid, g.end_turn.battleground.find uid = Option.map
      (fun c => if c.controlling_player = 1 - g.active_player then c.untap else c)
      (g.battleground.find uid)) ∧
    (∀ uid c, g.end_turn.battleground.find uid = some c →
      c.controlling_player = 1 - g.active_player → c.tapped = false) := by
  refine ⟨?_, rfl, rfl, rfl, rfl, end_turn_find g, ?_⟩
  · simp [GameState.declare_attackers, GameState.is_valid_attack, h]
  · intro uid c hc hcp
    rw [end_turn_find g uid] at hc
    cases hg : g.battleground.find uid with
    | none => rw [hg] at hc; cases hc
    | some c0 =>
      rw [hg] at hc
      simp only [Option.map_some'] at hc
      by_cases hctl : c0.controlling_player = 1 - g.active_player
      · rw [if_pos hctl] at hc
        cases hc
        rfl
      · rw [if_neg hctl] at hc
        cases hc
        exact absurd hcp hctl

/-- A tapped 2/2 of player 1, used to exercise the turn-end untap. -/
def exTapped22 : CreatureState :=
  { power := 2, toughness := 2, controlling_player := 1,
    tapped := true, attacking := false, blocking := none }

/-- A DeclareAttackers state of player 0 with a tapped creature of
player 1 on the battleground. -/
def exC5G : GameState :=
  { life1 := 20, life2 := 20, active_player := 0, phase := 0,
    battleground := [(7, exTapped22)] }

/-- Witness for C5: an empty attack from `exC5G` ends the turn and
untaps player 1's creature. -/
theorem c5_empty_attack_ends_turn_witness :
    exC5G.declare_attackers [] = Except.ok exC5G.end_turn ∧
    exC5G.end_turn.phase = TurnPhase.DeclareAttackers ∧
    exC5G.end_turn.active_player = 1 - exC5G.active_player ∧
    exC5G.end_turn.life1 = exC5G.life1 ∧ exC5G.end_turn.life2 = exC5G.life2 ∧
    (∀ uid, exC5G.end_turn.battleground.find uid = Option.map
      (fun c => if c.controlling_player = 1 - exC5G.active_player then c.untap else c)
      (exC5G.battleground.find uid)) ∧
    (∀ uid c, exC5G.end_turn.battleground.find uid = some c →
      c.controlling_player = 1 - exC5G.active_player → c.tapped = false) :=
  c5_empty_attack_ends_turn exC5G (by decide)

/-! ### Claim C6: phase checks and full validation before mutation -/

theorem is_valid_attack_false (g : GameState) (uids : List Nat)
    (hall : ∀ u ∈ uids, (g.battleground.find u).isSome)
    (hbad : ∃ u ∈ uids, ∃ c, g.battleground.find u = some c ∧
      (c.tapped = true ∨ ¬ c.controlling_player = g.attacking_player)) :
    g.is_valid_attack uids = Except.ok false := by
  induction uids with
  | nil =>
    obtain ⟨u, hu, _⟩ := hbad
    cases hu
  | cons u rest ih =>
    have hsome := hall u (List.mem_cons_self u rest)
    cases hf : g.battleground.find u with
    | none => rw [hf] at hsome; cases hsome
    | some c =>
      simp only [GameState.is_valid_attack, hf]
      by_cases ht : c.tapped
      · simp [ht]
      · rw [if_neg ht]
        by_cases hctl : c.controlling_player = g.attacking_player
        · rw [if_neg (by simpa using hctl)]
          apply ih
          · intro v hv
            exact hall v (List.mem_cons_of_mem u hv)
          · obtain ⟨v, hv, cv, hcv, hbadv⟩ := hbad
            rcases List.mem_cons.mp hv with hvu | hvr
            · subst hvu
              rw [hf] at hcv
              cases hcv
              rcases hbadv with hb | hb
              · exact absurd hb (by simpa using ht)
              · exact absurd hctl hb
            · exact ⟨v, hvr, cv, hcv, hbadv⟩
        · simp [hctl]

theorem is_valid_block_false (g : GameState) (asg : List (Nat × Nat))
    (hall : ∀ p ∈ asg, (g.battleground.find p.1).isSome ∧
      (g.battleground.find p.2).isSome)
    (hbad : ∃ p ∈ asg, ∃ bl bd, g.battleground.find p.1 = some bl ∧
      g.battleground.find p.2 = some bd ∧
      (bl.tapped = true ∨ ¬ bl.controlling_player = g.defending_player ∨
        bd.attacking = false)) :
    g.is_valid_block asg = Except.ok false := by
  induction asg with
  | nil =>
    obtain ⟨p, hp, _⟩ := hbad
    cases hp
  | cons p rest ih =>
    obtain ⟨bu, du⟩ := p
    have hsome := hall (bu, du) (List.mem_cons_self _ rest)
    cases hfb : g.battleground.find bu with
    | none => rw [hfb] at hsome; exact absurd hsome.1 (by simp)
    | some bl =>
      cases hfd : g.battleground.find du with
      | none => rw [hfd] at hsome; exact absurd hsome.2 (by simp)
      | some bd =>
        simp only [GameState.is_valid_block, hfb, hfd]
        by_cases ht : bl.tapped
        · simp [ht]
        · rw [if_neg ht]
          by_cases hctl : bl.controlling_player = g.defending_player
          · rw [if_neg (by simpa using hctl)]
            by_cases hatt : bd.attacking
            · rw [if_neg (by simpa using hatt)]
              apply ih
              · intro q hq
                exact hall q (List.mem_cons_of_mem _ hq)
              · obtain ⟨q, hq, bl2, bd2, hq1, hq2, hbadq⟩ := hbad
                rcases List.mem_cons.mp hq with hqp | hqr
                · subst hqp
                  rw [hfb] at hq1
                  rw [hfd] at hq2
                  cases hq1
                  cases hq2
                  rcases hbadq with hb | hb | hb
                  · exact absurd hb (by simpa using ht)
                  · exact absurd hctl hb
                  · exact absurd hatt (by simp [hb])
                · exact ⟨q, hqr, bl2, bd2, hq1, hq2, hbadq⟩
            · simp [hatt]
          · simp [hctl]

/-- Claim C6: each fallible operation checks the phase first (failing
with InvalidPhase otherwise) and then fully validates its argument
(InvalidAttack for a tapped attacker or one not controlled by the
attacking player; InvalidBlock for a tapped blocker, a blocker of the
wrong controller, or a blocked creature that is not attacking;
InvalidCombatAssignment for a supplied assignment that is not a
reordering of the derived one).  In the pure embedding an error result
carries no successor state: the caller's GameState is untouched, since
the source raises before any mutation statement and the definitions
mirror that order. -/
theorem c6_validation (g : GameState) (uids : List Nat)
    (asg : List (Nat × Nat)) (ca : CombatAssignment) :
    (¬ g.phase = TurnPhase.DeclareAttackers →
      g.declare_attackers uids = Except.error GError.InvalidPhase) ∧
    (¬ g.phase = TurnPhase.DeclareBlockers →
      g.declare_blockers asg = Except.error GError.InvalidPhase) ∧
    (¬ g.phase = TurnPhase.CombatStep → ∀ oca,
      g.resolve_combat oca = Except.error GError.InvalidPhase) ∧
    (g.phase = TurnPhase.DeclareAttackers →
      (∀ u ∈ uids, (g.battleground.find u).isSome) →
      (∃ u ∈ uids, ∃ c, g.battleground.find u = some c ∧
        (c.tapped = true ∨ ¬ c.controlling_player = g.attacking_player)) →
      g.declare_attackers uids = Except.error GError.InvalidAttack) ∧
    (g.phase = TurnPhase.DeclareBlockers →
      (∀ p ∈ asg, (g.battleground.find p.1).isSome ∧
        (g.battleground.find p.2).isSome) →
      (∃ p ∈ asg, ∃ bl bd, g.battleground.find p.1 = some bl ∧
        g.battleground.find p.2 = some bd ∧
        (bl.tapped = true ∨ ¬ bl.controlling_player = g.defending_player ∨
          bd.attacking = false)) →
      g.declare_blockers asg = Except.error GError.InvalidBlock) ∧
    (g.phase = TurnPhase.CombatStep →
      ca.is_reorder_of g.battleground.get_combat_assignment = false →
      g.resolve_combat (some ca) =
        Except.error GError.InvalidCombatAssignment) := by
  refine ⟨?_, ?_, ?_, ?_, ?_, ?_⟩
  · intro hp
    simp [GameState.declare_attackers, hp]
  · intro hp
    simp [GameState.declare_blockers, hp]
  · intro hp oca
    simp [GameState.resolve_combat, hp]
  · intro hp hall hbad
    simp [GameState.declare_attackers, hp,
      is_valid_attack_false g uids hall hbad]
  · intro hp hall hbad
    simp [GameState.declare_blockers, hp,
      is_valid_block_false g asg hall hbad]
  · intro hp hre
    simp [GameState.resolve_combat, hp, hre]

/-- Witness for C6: each validation failure demonstrated on a concrete
state. -/
theorem c6_validation_witness :
    exScn2.declare_attackers [0] = Except.error GError.InvalidPhase ∧
    exScn0.declare_blockers [(0, 0)] = Except.error GError.InvalidPhase ∧
    exScn0.resolve_combat none = Except.error GError.InvalidPhase ∧
    exC5G.declare_attackers [7] = Except.error GError.InvalidAttack ∧
    exScn1.declare_blockers [(0, 0)] = Except.error GError.InvalidBlock ∧
    exScn2.resolve_combat (some [(1, [])]) =
      Except.error GError.InvalidCombatAssignment :=
  ⟨(c6_validation exScn2 [0] [] []).1 (by decide),
   (c6_validation exScn0 [] [(0, 0)] []).2.1 (by decide),
   (c6_validation exScn0 [] [] []).2.2.1 (by decide) none,
   (c6_validation exC5G [7] [] []).2.2.2.1 (by decide) (by decide)
     ⟨7, by decide, exTapped22, by decide, by decide⟩,
   (c6_validation exScn1 [] [(0, 0)] []).2.2.2.2.1 (by decide) (by decide)
     ⟨(0, 0), by decide, { exC44 with tapped := true, attacking := true },
      { exC44 with tapped := true, attacking := true }, by decide, by decide,
      by decide⟩,
   (c6_validation exScn2 [] [] [(1, [])]).2.2.2.2.2 (by decide) (by decide)⟩

/-! ### Claim C7: outcome -/

/-- Claim C7: `outcome` fails with NotOver whenever both life totals
are strictly positive; once at least one life total is ≤ 0 it returns
Draw when both are ≤ 0, and otherwise Loss when the dead player is the
one next to act and Win otherwise. -/
theorem c7_outcome (g : GameState) :
    (0 < g.life1 → 0 < g.life2 →
      g.outcome = Except.error GError.NotOver) ∧
    (g.life1 ≤ 0 → g.life2 ≤ 0 → g.outcome = Except.ok Outcome.Draw) ∧
    (g.life1 ≤ 0 → 0 < g.life2 →
      g.outcome = Except.ok
        (if g.next_to_act = 0 then Outcome.Loss else Outcome.Win)) ∧
    (0 < g.life1 → g.life2 ≤ 0 →
      g.outcome = Except.ok
        (if g.next_to_act = 1 then Outcome.Loss else Outcome.Win)) := by
  refine ⟨?_, ?_, ?_, ?_⟩
  · intro h1 h2
    simp only [GameState.outcome, GameState.is_over]
    rw [if_pos (by omega)]
  · intro h1 h2
    simp only [GameState.outcome, GameState.is_over]
    rw [if_neg (by omega), if_pos ⟨h1, h2⟩]
  · intro h1 h2
    simp only [GameState.outcome, GameState.is_over]
    rw [if_neg (by omega), if_neg (by omega), if_pos h1]
    by_cases hn : g.next_to_act = 0
    · rw [if_pos (by omega), if_pos hn]
    · rw [if_neg (by omega), if_neg hn]
  · intro h1 h2
    simp only [GameState.outcome, GameState.is_over]
    rw [if_neg (by omega), if_neg (by omega),
      if_neg (show ¬ g.life1 ≤ 0 by omega)]
    by_cases hn : g.next_to_act = 1
    · rw [if_pos (by omega), if_pos hn]
    · rw [if_neg (by omega), if_neg hn]

/-- Witness for C7: three concrete states exercising NotOver, Draw and
the Loss branch. -/
theorem c7_outcome_witness :
    GameState.outcome { life1 := 20, life2 := 16, active_player := 1, phase := 0, battleground := [] } = Except.error GError.NotOver ∧
    GameState.outcome { life1 := 0, life2 := -2, active_player := 1, phase := 0, battleground := [] } = Except.ok Outcome.Draw ∧
    GameState.outcome { life1 := 20, life2 := -1, active_player := 1, phase := 0, battleground := [] } = Except.ok (if GameState.next_to_act { life1 := 20, life2 := -1, active_player := 1, phase := 0, battleground := [] } = 1 then Outcome.Loss else Outcome.Win) :=
  ⟨(c7_outcome _).1 (by decide) (by decide),
   (c7_outcome _).2.1 (by decide) (by decide),
   (c7_outcome _).2.2.2 (by decide) (by decide)⟩

/-! ### Claim C9: where the life totals are written

The source mutates a life total in exactly one statement, inside
`_resolve_unblocked_attacker`; `_resolve_blocked_attacker` contains no
life assignment.  The `_counting` variants below are the same functions
instrumented with a counter of executed life-total assignments. -/

/-- `_resolve_unblocked_attacker` instrumented with the number of
life-total assignments it executes (exactly one). -/
def GameState.resolve_unblocked_attacker_counting (g : GameState)
    (uid : Nat) : Except GError (GameState × Nat) :=
  match g.resolve_unblocked_attacker uid with
  | Except.error e => Except.error e
  | Except.ok g1 => Except.ok (g1, 1)

/-- `_resolve_blocked_attacker` instrumented with the number of
life-total assignments it executes (none: the blocked path has no life
assignment). -/
def GameState.resolve_blocked_attacker_counting (g : GameState)
    (auid : Nat) (buids : List Nat) : Except GError (GameState × Nat) :=
  match g.resolve_blocked_attacker auid buids with
  | Except.error e => Except.error e
  | Except.ok g1 => Except.ok (g1, 0)

/-- The attacker loop of `resolve_combat`, instrumented. -/
def GameState.resolve_items_counting (g : GameState) :
    List (Nat × List Nat) → Except GError (GameState × Nat)
  | [] => Except.ok (g, 0)
  | (attacker_uid, blocker_uids) :: rest =>
    match (if ¬ blocker_uids = [] then
             g.resolve_blocked_attacker_counting attacker_uid blocker_uids
           else
             g.resolve_unblocked_attacker_counting attacker_uid) with
    | Except.error e => Except.error e
    | Except.ok (g1, n) =>
      match GameState.resolve_items_counting g1 rest with
      | Except.error e => Except.error e
      | Except.ok (g2, m) => Except.ok (g2, n + m)

/-- `resolve_combat`, instrumented (`end_turn` contains no life
assignment). -/
def GameState.resolve_combat_counting (g : GameState)
    (combat_assignment : Option CombatAssignment) :
    Except GError (GameState × Nat) :=
  if ¬ g.phase = TurnPhase.CombatStep then Except.error GError.InvalidPhase
  else
    let current := g.battleground.get_combat_assignment
    match combat_assignment with
    | none =>
      match g.resolve_items_counting current with
      | Except.error e => Except.error e
      | Except.ok (g1, n) => Except.ok (g1.end_turn, n)
    | some ca =>
      if ¬ ca.is_reorder_of current then
        Except.error GError.InvalidCombatAssignment
      else
        match g.resolve_items_counting ca with
        | Except.error e => Except.error e
        | Except.ok (g1, n) => Except.ok (g1.end_turn, n)

theorem resolve_items_counting_fst (items : List (Nat × List Nat))
    (g : GameState) :
    Except.map Prod.fst (g.resolve_items_counting items) =
      g.resolve_items items := by
  induction items generalizing g with
  | nil => rfl
  | cons p rest ih =>
    obtain ⟨a, bs⟩ := p
    simp only [GameState.resolve_items_counting, GameState.resolve_items]
    by_cases hbs : bs = []
    · have hcond : ¬ ¬ bs = [] := by simpa using hbs
      rw [if_neg hcond, if_neg hcond]
      simp only [GameState.resolve_unblocked_attacker_counting]
      cases g.resolve_unblocked_attacker a with
      | error e => simp [Except.map]
      | ok g1 =>
        simp only
        cases hrc : g1.resolve_items_counting rest with
        | error e => rw [← ih g1, hrc]
        | ok p2 =>
          obtain ⟨g2, m⟩ := p2
          rw [← ih g1, hrc]
          rfl
    · rw [if_pos hbs, if_pos hbs]
      simp only [GameState.resolve_blocked_attacker_counting]
      cases g.resolve_blocked_attacker a bs with
      | error e => simp [Except.map]
      | ok g1 =>
        simp only
        cases hrc : g1.resolve_items_counting rest with
        | error e => rw [← ih g1, hrc]
        | ok p2 =>
          obtain ⟨g2, m⟩ := p2
          rw [← ih g1, hrc]
          rfl

theorem resolve_items_counting_count (items : List (Nat × List Nat))
    (g g' : GameState) (n : Nat)
    (h : g.resolve_items_counting items = Except.ok (g', n)) :
    n = List.countP (fun kv => decide (kv.2 = [])) items := by
  induction items generalizing g n with
  | nil =>
    simp only [GameState.resolve_items_counting] at h
    cases h
    rfl
  | cons p rest ih =>
    obtain ⟨a, bs⟩ := p
    simp only [GameState.resolve_items_counting] at h
    by_cases hbs : bs = []
    · rw [if_neg (by simpa using hbs)] at h
      simp only [GameState.resolve_unblocked_attacker_counting] at h
      cases hu : g.resolve_unblocked_attacker a with
      | error e => rw [hu] at h; cases h
      | ok g1 =>
        rw [hu] at h
        simp only at h
        cases hrc : g1.resolve_items_counting rest with
        | error e => rw [hrc] at h; cases h
        | ok p2 =>
          rw [hrc] at h
          obtain ⟨g2, m⟩ := p2
          cases h
          have := ih g1 m hrc
          simp [List.countP_cons, hbs, this]
          omega
    · rw [if_pos (by simpa using hbs)] at h
      simp only [GameState.resolve_blocked_attacker_counting] at h
      cases hu : g.resolve_blocked_attacker a bs with
      | error e => rw [hu] at h; cases h
      | ok g1 =>
        rw [hu] at h
        simp only at h
        cases hrc : g1.resolve_items_counting rest with
        | error e => rw [hrc] at h; cases h
        | ok p2 =>
          rw [hrc] at h
          obtain ⟨g2, m⟩ := p2
          cases h
          have := ih g1 m hrc
          simp [List.countP_cons, hbs, this]

/-- Counterexample for C9 as stated: at `exG` the combat assignment
holds exactly one (blocked) attacker, yet resolving combat executes
zero life-total assignments (and indeed both lives are unchanged) — not
one per blocked attacker. -/
theorem c9_counterexample :
    Except.map Prod.snd (exG.resolve_combat_counting none) = Except.ok 0 ∧
    Except.map (fun p => (p.1.life1, p.1.life2))
      (exG.resolve_combat_counting none) = Except.ok (20, 20) ∧
    exG.battleground.get_combat_assignment.length = 1 ∧
    ¬ (0 : Nat) = 1 := by
  refine ⟨?_, ?_, by decide, by decide⟩ <;> decide

/-- Claim C9 (amended): the life totals are written only inside combat
resolution, exactly once per unblocked attacker of the combat
assignment; blocked attackers never write a life total, and
declare_attackers, declare_blockers and copy leave both life totals
unchanged. -/
theorem c9_life_writes :
    (∀ (g : GameState) (oca : Option CombatAssignment),
      g.resolve_combat oca =
        Except.map Prod.fst (g.resolve_combat_counting oca)) ∧
    (∀ (g g' : GameState) (n : Nat),
      g.resolve_combat_counting none = Except.ok (g', n) →
      n = List.countP (fun kv => decide (kv.2 = []))
            g.battleground.get_combat_assignment) ∧
    (∀ (g : GameState) (ca : CombatAssignment) (g' : GameState) (n : Nat),
      g.resolve_combat_counting (some ca) = Except.ok (g', n) →
      n = List.countP (fun kv => decide (kv.2 = [])) ca) ∧
    (∀ (g : GameState) (uids : List Nat) (g' : GameState),
      g.declare_attackers uids = Except.ok g' →
      g'.life1 = g.life1 ∧ g'.life2 = g.life2) ∧
    (∀ (g : GameState) (asg : List (Nat × Nat)) (g' : GameState),
      g.declare_blockers asg = Except.ok g' →
      g'.life1 = g.life1 ∧ g'.life2 = g.life2) ∧
    (∀ g : GameState, g.copy.life1 = g.life1 ∧ g.copy.life2 = g.life2) := by
  refine ⟨?_, ?_, ?_, ?_, ?_, fun g => ⟨rfl, rfl⟩⟩
  · intro g oca
    simp only [GameState.resolve_combat, GameState.resolve_combat_counting]
    by_cases hp : g.phase = TurnPhase.CombatStep
    · rw [if_neg (by simpa using hp), if_neg (by simpa using hp)]
      cases oca with
      | none =>
        simp only
        rw [← resolve_items_counting_fst g.battleground.get_combat_assignment g]
        cases g.resolve_items_counting g.battleground.get_combat_assignment with
        | error e => rfl
        | ok p => obtain ⟨g1, n⟩ := p; rfl
      | some ca =>
        simp only
        by_cases hre : ca.is_reorder_of g.battleground.get_combat_assignment
        · rw [if_neg (by simpa using hre), if_neg (by simpa using hre)]
          rw [← resolve_items_counting_fst ca g]
          cases g.resolve_items_counting ca with
          | error e => rfl
          | ok p => obtain ⟨g1, n⟩ := p; rfl
        · rw [if_pos (by simpa using hre), if_pos (by simpa using hre)]
          rfl
    · rw [if_pos (by simpa using hp), if_pos (by simpa using hp)]
      rfl
  · intro g g' n h
    simp only [GameState.resolve_combat_counting] at h
    by_cases hp : g.phase = TurnPhase.CombatStep
    · rw [if_neg (by simpa using hp)] at h
      cases hrc : g.resolve_items_counting g.battleground.get_combat_assignment with
      | error e => rw [hrc] at h; cases h
      | ok p =>
        obtain ⟨g1, m⟩ := p
        rw [hrc] at h
        cases h
        exact resolve_items_counting_count _ g g1 n hrc
    · rw [if_pos (by simpa using hp)] at h
      cases h
  · intro g ca g' n h
    simp only [GameState.resolve_combat_counting] at h
    by_cases hp : g.phase = TurnPhase.CombatStep
    · rw [if_neg (by simpa using hp)] at h
      by_cases hre : ca.is_reorder_of g.battleground.get_combat_assignment
      · rw [if_neg (by simpa using hre)] at h
        cases hrc : g.resolve_items_counting ca with
        | error e => rw [hrc] at h; cases h
        | ok p =>
          obtain ⟨g1, m⟩ := p
          rw [hrc] at h
          cases h
          exact resolve_items_counting_count _ g g1 n hrc
      · rw [if_pos (by simpa using hre)] at h
        cases h
    · rw [if_pos (by simpa using hp)] at h
      cases h
  · intro g uids g' h
    simp only [GameState.declare_attackers] at h
    by_cases hp : g.phase = TurnPhase.DeclareAttackers
    · rw [if_neg (by simpa using hp)] at h
      cases hv : g.is_valid_attack uids with
      | error e => rw [hv] at h; cases h
      | ok b =>
        rw [hv] at h
        cases b with
        | false => cases h
        | true =>
          simp only at h
          by_cases hu : uids = []
          · rw [if_neg (by simpa using hu)] at h
            cases h
            exact ⟨rfl, rfl⟩
          · rw [if_pos hu] at h
            cases h
            exact ⟨rfl, rfl⟩
    · rw [if_pos (by simpa using hp)] at h
      cases h
  · intro g asg g' h
    simp only [GameState.declare_blockers] at h
    by_cases hp : g.phase = TurnPhase.DeclareBlockers
    · rw [if_neg (by simpa using hp)] at h
      cases hv : g.is_valid_block asg with
      | error e => rw [hv] at h; cases h
      | ok b =>
        rw [hv] at h
        cases b with
        | false => cases h
        | true =>
          simp only at h
          cases h
          exact ⟨rfl, rfl⟩
    · rw [if_pos (by simpa using hp)] at h
      cases h

/-- Witness for C9 (amended) at the unblocked scenario: the count is
one for the single unblocked attacker, and declaring the attack left
the lives unchanged. -/
theorem c9_life_writes_witness :
    exScn2.resolve_combat none =
      Except.map Prod.fst (exScn2.resolve_combat_counting none) ∧
    (1 : Nat) = List.countP (fun kv => decide (kv.2 = []))
      exScn2.battleground.get_combat_assignment ∧
    (exScn1.life1 = exScn0.life1 ∧ exScn1.life2 = exScn0.life2) :=
  ⟨c9_life_writes.1 exScn2 none,
   c9_life_writes.2.1 exScn2 exScn3 1 (by decide),
   c9_life_writes.2.2.2.1 exScn0 [0] exScn1 (by decide)⟩

/-! ### Claim C10: blocking does not tap -/

theorem markBlockers_find_tapped (asg : List (Nat × Nat))
    (bg : Battleground) (v : Nat) :
    Option.map CreatureState.tapped ((markBlockers bg asg).find v) =
      Option.map CreatureState.tapped (bg.find v) := by
  induction asg generalizing bg with
  | nil => rfl
  | cons p rest ih =>
    obtain ⟨bu, du⟩ := p
    simp only [markBlockers]
    rw [ih, Battleground.find_set]
    by_cases hv : v = bu
    · rw [if_pos hv]
      cases bg.find v <;> simp [CreatureState.block]
    · rw [if_neg hv]

theorem markBlockers_find_notmem (asg : List (Nat × Nat))
    (bg : Battleground) (v : Nat) (hv : ¬ v ∈ List.map Prod.fst asg) :
    (markBlockers bg asg).find v = bg.find v := by
  induction asg generalizing bg with
  | nil => rfl
  | cons p rest ih =>
    obtain ⟨bu, du⟩ := p
    simp only [List.map_cons, List.mem_cons] at hv
    push_neg at hv
    simp only [markBlockers]
    rw [ih _ hv.2, Battleground.find_set, if_neg hv.1]

theorem markBlockers_find_mem (asg : List (Nat × Nat))
    (bg : Battleground) (bu du : Nat)
    (hnd : (List.map Prod.fst asg).Nodup)
    (hmem : (bu, du) ∈ asg) :
    (markBlockers bg asg).find bu =
      Option.map (fun c => c.block du) (bg.find bu) := by
  induction asg generalizing bg with
  | nil => cases hmem
  | cons p rest ih =>
    obtain ⟨b0, d0⟩ := p
    simp only [List.map_cons, List.nodup_cons] at hnd
    rcases List.mem_cons.mp hmem with hh | hr
    · injection hh with h1 h2
      subst h1
      subst h2
      simp only [markBlockers]
      rw [markBlockers_find_notmem rest _ bu hnd.1,
        Battleground.find_set, if_pos rfl]
    · have hne : ¬ bu = b0 := by
        intro he
        subst he
        exact hnd.1 (List.mem_map.mpr ⟨(bu, du), hr, rfl⟩)
      simp only [markBlockers]
      rw [ih _ hnd.2 hr, Battleground.find_set, if_neg hne]

theorem is_valid_block_true_mem (g : GameState) (asg : List (Nat × Nat))
    (h : g.is_valid_block asg = Except.ok true) :
    ∀ p ∈ asg, ∃ bl, g.battleground.find p.1 = some bl ∧
      bl.tapped = false ∧
      bl.controlling_player = g.defending_player ∧
      ∃ bd, g.battleground.find p.2 = some bd ∧ bd.attacking = true := by
  induction asg with
  | nil => intro p hp; cases hp
  | cons q rest ih =>
    obtain ⟨bu, du⟩ := q
    intro p hp
    cases hfb : g.battleground.find bu with
    | none => simp [GameState.is_valid_block, hfb] at h
    | some bl =>
      cases hfd : g.battleground.find du with
      | none => simp [GameState.is_valid_block, hfb, hfd] at h
      | some bd =>
        simp only [GameState.is_valid_block, hfb, hfd] at h
        by_cases ht : bl.tapped
        · rw [if_pos ht] at h; cases h
        · rw [if_neg ht] at h
          by_cases hctl : bl.controlling_player = g.defending_player
          · rw [if_neg (by simpa using hctl)] at h
            by_cases hatt : bd.attacking
            · rw [if_neg (by simpa using hatt)] at h
              rcases List.mem_cons.mp hp with hh | hr
              · subst hh
                exact ⟨bl, hfb, by simpa using ht, hctl, bd, hfd,
                  by simpa using hatt⟩
              · exact ih h p hr
            · rw [if_pos (by simpa using hatt)] at h
              cases h
          · rw [if_pos (by simpa using hctl)] at h
            cases h

/-- Claim C10: a successful declare_blockers call advances the phase
to CombatStep and marks every blocker as blocking its target, but it
never changes any creature's tapped state — in particular every blocker
is still untapped afterwards. -/
theorem c10_blockers_not_tapped (g : GameState)
    (asg : List (Nat × Nat)) (g' : GameState)
    (hnd : (List.map Prod.fst asg).Nodup)
    (h : g.declare_blockers asg = Except.ok g') :
    g'.phase = TurnPhase.CombatStep ∧
    (∀ v, Option.map CreatureState.tapped (g'.battleground.find v) =
      Option.map CreatureState.tapped (g.battleground.find v)) ∧
    (∀ p ∈ asg, ∃ c, g'.battleground.find p.1 = some c ∧
      c.tapped = false ∧ c.blocking = some p.2) := by
  simp only [GameState.declare_blockers] at h
  by_cases hp : g.phase = TurnPhase.DeclareBlockers
  · rw [if_neg (by simpa using hp)] at h
    cases hv : g.is_valid_block asg with
    | error e => rw [hv] at h; cases h
    | ok b =>
      rw [hv] at h
      cases b with
      | false => cases h
      | true =>
        simp only at h
        cases h
        refine ⟨rfl, fun v => markBlockers_find_tapped asg g.battleground v, ?_⟩
        intro p hp'
        obtain ⟨bl, hfb, htap, _, _⟩ :=
          is_valid_block_true_mem g asg hv p hp'
        refine ⟨bl.block p.2, ?_, ?_, rfl⟩
        · rw [markBlockers_find_mem asg g.battleground p.1 p.2 hnd
            (by simpa using hp'), hfb]
          rfl
        · simpa [CreatureState.block] using htap
  · rw [if_pos (by simpa using hp)] at h
    cases h

/-- A DeclareBlockers state: attacker 0 (attacking, tapped) of player
0, untapped creature 1 of player 1 about to block. -/
def exGDB0 : GameState :=
  { life1 := 20, life2 := 20, active_player := 0, phase := 1,
    battleground := [(0, exAtk), (1, { exB1 with blocking := none })] }

/-- The state after creature 1 blocks attacker 0: phase CombatStep,
creature 1 blocking and still untapped. -/
def exGDB1 : GameState :=
  { life1 := 20, life2 := 20, active_player := 0, phase := 2,
    battleground := [(0, exAtk), (1, exB1)] }

/-- Witness for C10: creature 1 of `exGDB0` blocks attacker 0 and is
still untapped afterwards. -/
theorem c10_blockers_not_tapped_witness :
    exGDB1.phase = TurnPhase.CombatStep ∧
    (∀ v, Option.map CreatureState.tapped (exGDB1.battleground.find v) =
      Option.map CreatureState.tapped (exGDB0.battleground.find v)) ∧
    (∀ p ∈ ([(1, 0)] : List (Nat × Nat)), ∃ c,
      exGDB1.battleground.find p.1 = some c ∧
      c.tapped = false ∧ c.blocking = some p.2) :=
  c10_blockers_not_tapped exGDB0 [(1, 0)] exGDB1 (by decide) (by decide)

/-! ### Claim C8: the canonical string round-trip

`__repr__` renders a GameState as
`<life1>/<life2> (<active_player>/<phase>): <battleground>` with `%d`
(decimal) integers, and `from_string` parses it back with the regex
`(?P<life1>.+)/(?P<life2>.+) \((?P<active_player>\d)/(?P<phase>\d)\): (?P<battleground>.*)`
re-matched from the start, the numeric groups fed to `int`.  Strings are
embedded as `List Char`.  Greedy matching makes `life1` as long as
possible, so the separator ` (d/d): ` that the engine uses is the last
occurrence and the `/` between the life groups is the last `/` before
it; the parser below implements exactly that (faithful whenever the
rendered string contains no newline and a single separator occurrence,
which the round-trip theorem's hypotheses about the battleground
rendering guarantee).  The battleground's own rendering, parsing and
normal form live in the missing `battleground_state.py` and are out of
the spec's scope, so they enter as parameters. -/

/-- The decimal digit character of `n` (for `n < 10`). -/
def digitChar (n : Nat) : Char := Char.ofNat (48 + n)

/-- The decimal digit string of a natural number, as rendered by
Python's `%d`. -/
def natToDigits (n : Nat) : List Char :=
  if _h : n < 10 then [digitChar n]
  else natToDigits (n / 10) ++ [digitChar (n % 10)]
decreasing_by omega

/-- The decimal rendering of an integer, as rendered by `%d`: a minus
sign followed by the digits of the absolute value when negative. -/
def intToChars (i : Int) : List Char :=
  if i < 0 then '-' :: natToDigits i.natAbs else natToDigits i.toNat

/-- The digit-accumulating core of Python's `int()` on a digit
string. -/
def parseNatFrom (acc : Nat) : List Char → Option Nat
  | [] => some acc
  | c :: cs =>
    if c.isDigit then parseNatFrom (acc * 10 + (c.toNat - 48)) cs
    else none

/-- Python's `int()` on a non-empty digit string. -/
def parseNat (cs : List Char) : Option Nat :=
  if cs = [] then none else parseNatFrom 0 cs

/-- Python's `int()` on an optionally minus-signed digit string (the
only shapes produced by `%d`). -/
def parseInt (cs : List Char) : Option Int :=
  match cs with
  | [] => none
  | c :: rest =>
    if c = '-' then
      match parseNat rest with
      | some n => some (-(n : Int))
      | none => none
    else
      match parseNat cs with
      | some n => some ((n : Int))
      | none => none

/-- `GameState.__repr__`, parameterized by the battleground's own
renderer. -/
def GameState.repr (bgRepr : Battleground → List Char)
    (g : GameState) : List Char :=
  intToChars g.life1 ++ '/' :: intToChars g.life2 ++
    ' ' :: '(' :: natToDigits g.active_player ++
    '/' :: natToDigits g.phase ++ ')' :: ':' :: ' ' :: bgRepr g.battleground

/-- Does the list start with the separator pattern ` (d/d): ` of the
`from_string` regex?  When it does, return the two digits and the
remainder. -/
def sepSplit (l : List Char) : Option (Char × Char × List Char) :=
  match l with
  | c0 :: c1 :: d1 :: c3 :: d2 :: c5 :: c6 :: c7 :: bgs =>
    if c0 = ' ' ∧ c1 = '(' ∧ c3 = '/' ∧ c5 = ')' ∧ c6 = ':' ∧ c7 = ' ' ∧
        d1.isDigit = true ∧ d2.isDigit = true
    then some (d1, d2, bgs) else none
  | _ => none

/-- Does the separator pattern occur anywhere in the list? -/
def hasSep : List Char → Bool
  | [] => false
  | c :: cs => (sepSplit (c :: cs)).isSome || hasSep cs

/-- Split at the last occurrence of the separator pattern (the one the
greedy `life1` group makes the regex engine use). -/
def splitLastSep : List Char → Option (List Char × Char × Char × List Char)
  | [] => none
  | c :: cs =>
    match splitLastSep cs with
    | some (pre, d1, d2, bgs) => some (c :: pre, d1, d2, bgs)
    | none =>
      match sepSplit (c :: cs) with
      | some (d1, d2, bgs) => some ([], d1, d2, bgs)
      | none => none

/-- Split at the last slash that leaves a non-empty right part (the
greedy `life1` group makes the regex engine split there). -/
def splitLastSlash : List Char → Option (List Char × List Char)
  | [] => none
  | c :: cs =>
    match splitLastSlash cs with
    | some (a, b) => some (c :: a, b)
    | none => if c = '/' ∧ ¬ cs = [] then some ([], cs) else none

/-- `GameState.from_string`, parameterized by the battleground's own
parser: match the regex groups, feed the numeric ones to `int`, parse
the battleground group. -/
def GameState.from_string (bgParse : List Char → Option Battleground)
    (s : List Char) : Option GameState :=
  match splitLastSep s with
  | none => none
  | some (pre, d1, d2, bgs) =>
    match splitLastSlash pre with
    | none => none
    | some (a, b) =>
      if a = [] then none
      else
        match parseInt a, parseInt b with
        | some l1, some l2 =>
          match bgParse bgs with
          | some bg =>
            some { life1 := l1, life2 := l2, active_player := d1.toNat - 48, phase := d2.toNat - 48, battleground := bg }
          | none => none
        | _, _ => none

/-- `GameState.normalize`, parameterized by the battleground's own
normal form: the tuple of the four scalar fields paired with the
normalized battleground. -/
def GameState.normalizeWith (bgNorm : Battleground → Battleground)
    (g : GameState) : (Int × Int × Nat × Nat) × Battleground :=
  ((g.life1, g.life2, g.active_player, g.phase), bgNorm g.battleground)

theorem digitChar_isDigit (k : Nat) (h : k < 10) :
    (digitChar k).isDigit = true := by
  interval_cases k <;> decide

theorem digitChar_toNat (k : Nat) (h : k < 10) :
    (digitChar k).toNat = 48 + k := by
  interval_cases k <;> decide

theorem digit_not_space (c : Char) (h : c.isDigit = true) : ¬ c = ' ' := by
  intro he
  subst he
  exact absurd h (by decide)

theorem digit_not_slash (c : Char) (h : c.isDigit = true) : ¬ c = '/' := by
  intro he
  subst he
  exact absurd h (by decide)

theorem digit_not_minus (c : Char) (h : c.isDigit = true) : ¬ c = '-' := by
  intro he
  subst he
  exact absurd h (by decide)

theorem natToDigits_ne_nil (n : Nat) : ¬ natToDigits n = [] := by
  rw [natToDigits]
  split <;> simp

theorem natToDigits_isDigit (n : Nat) :
    ∀ c ∈ natToDigits n, c.isDigit = true := by
  induction n using Nat.strong_induction_on with
  | _ n ih =>
    intro c hc
    rw [natToDigits] at hc
    by_cases h : n < 10
    · rw [dif_pos h] at hc
      simp only [List.mem_singleton] at hc
      subst hc
      exact digitChar_isDigit n h
    · rw [dif_neg h] at hc
      rcases List.mem_append.mp hc with h1 | h2
      · exact ih (n / 10) (by omega) c h1
      · simp only [List.mem_singleton] at h2
        subst h2
        exact digitChar_isDigit _ (Nat.mod_lt _ (by omega))

theorem slash_not_mem_natToDigits (n : Nat) : ¬ '/' ∈ natToDigits n := by
  intro h
  exact absurd (natToDigits_isDigit n '/' h) (by decide)

theorem slash_not_mem_intToChars (i : Int) : ¬ '/' ∈ intToChars i := by
  rw [intToChars]
  split
  · intro h
    rcases List.mem_cons.mp h with h1 | h2
    · cases h1
    · exact slash_not_mem_natToDigits _ h2
  · exact slash_not_mem_natToDigits _

theorem intToChars_ne_nil (i : Int) : ¬ intToChars i = [] := by
  rw [intToChars]
  split
  · simp
  · exact natToDigits_ne_nil _

theorem parseNatFrom_append_some (l1 l2 : List Char) (acc a : Nat)
    (h : parseNatFrom acc l1 = some a) :
    parseNatFrom acc (l1 ++ l2) = parseNatFrom a l2 := by
  induction l1 generalizing acc with
  | nil =>
    simp only [parseNatFrom] at h
    cases h
    rfl
  | cons c cs ih =>
    simp only [parseNatFrom] at h ⊢
    by_cases hd : c.isDigit
    · rw [if_pos hd] at h ⊢
      exact ih _ h
    · rw [if_neg hd] at h
      cases h

theorem parseNatFrom_natToDigits (n : Nat) : ∀ acc : Nat,
    parseNatFrom acc (natToDigits n) =
      some (acc * 10 ^ (natToDigits n).length + n) := by
  induction n using Nat.strong_induction_on with
  | _ n ih =>
    intro acc
    by_cases h : n < 10
    · rw [natToDigits, dif_pos h]
      simp only [parseNatFrom, digitChar_isDigit n h, if_pos,
        digitChar_toNat n h, List.length_singleton]
      have : 48 + n - 48 = n := by omega
      rw [this]
      norm_num
    · rw [natToDigits, dif_neg h]
      have hq := ih (n / 10) (by omega) acc
      rw [parseNatFrom_append_some _ _ _ _ hq]
      have hm : n % 10 < 10 := Nat.mod_lt _ (by omega)
      simp only [parseNatFrom, digitChar_isDigit _ hm, if_pos,
        digitChar_toNat _ hm, List.length_append, List.length_singleton]
      have h48 : 48 + n % 10 - 48 = n % 10 := by omega
      rw [h48]
      congr 1
      have hpow : 10 ^ ((natToDigits (n / 10)).length + 1) =
          10 ^ (natToDigits (n / 10)).length * 10 := pow_succ 10 _
      rw [hpow]
      have hsplit : n % 10 + 10 * (n / 10) = n := Nat.mod_add_div n 10
      ring_nf
      omega

theorem parseNat_natToDigits (n : Nat) :
    parseNat (natToDigits n) = some n := by
  rw [parseNat, if_neg (natToDigits_ne_nil n), parseNatFrom_natToDigits]
  simp

theorem parseInt_intToChars (i : Int) : parseInt (intToChars i) = some i := by
  by_cases hneg : i < 0
  · rw [intToChars, if_pos hneg]
    simp only [parseInt, parseNat_natToDigits, if_pos]
    congr 1
    omega
  · rw [intToChars, if_neg hneg]
    cases hD : natToDigits i.toNat with
    | nil => exact absurd hD (natToDigits_ne_nil _)
    | cons c rest =>
      have hc : c.isDigit = true :=
        natToDigits_isDigit i.toNat c (hD ▸ List.mem_cons_self c rest)
      simp only [parseInt, if_neg (digit_not_minus c hc)]
      rw [← hD, parseNat_natToDigits]
      show some ((i.toNat : Int)) = some i
      congr 1
      omega

theorem splitLastSlash_none (l : List Char) (h : ¬ '/' ∈ l) :
    splitLastSlash l = none := by
  induction l with
  | nil => rfl
  | cons c cs ih =>
    have htail : ¬ '/' ∈ cs := fun hm => h (List.mem_cons_of_mem c hm)
    have hc : ¬ c = '/' := fun he => h (he ▸ List.mem_cons_self c cs)
    simp only [splitLastSlash, ih htail]
    rw [if_neg]
    rintro ⟨h1, _⟩
    exact hc h1

theorem splitLastSlash_append (A B : List Char) (hA : ¬ '/' ∈ A)
    (hB : ¬ '/' ∈ B) (hBne : ¬ B = []) :
    splitLastSlash (A ++ '/' :: B) = some (A, B) := by
  induction A with
  | nil =>
    simp only [List.nil_append, splitLastSlash, splitLastSlash_none B hB]
    simp [hBne]
  | cons a A2 ih =>
    have htail : ¬ '/' ∈ A2 := fun hm => hA (List.mem_cons_of_mem a hm)
    simp only [List.cons_append, splitLastSlash, List.append_eq, ih htail]

theorem sepSplit_designed (d1 d2 : Char) (bgs : List Char)
    (h1 : d1.isDigit = true) (h2 : d2.isDigit = true) :
    sepSplit (' ' :: '(' :: d1 :: '/' :: d2 :: ')' :: ':' :: ' ' :: bgs) =
      some (d1, d2, bgs) := by
  simp [sepSplit, h1, h2]

theorem sepSplit_none_of_head (c : Char) (cs : List Char)
    (hc : ¬ c = ' ') : sepSplit (c :: cs) = none := by
  rcases cs with _ | ⟨c1, _ | ⟨c2, _ | ⟨c3, _ | ⟨c4, _ | ⟨c5, _ | ⟨c6, _ | ⟨c7, rest⟩⟩⟩⟩⟩⟩⟩
  · rfl
  · rfl
  · rfl
  · rfl
  · rfl
  · rfl
  · rfl
  · simp only [sepSplit]
    rw [if_neg]
    rintro ⟨h1, _⟩
    exact hc h1

theorem splitLastSep_none (l : List Char) (h : hasSep l = false) :
    splitLastSep l = none := by
  induction l with
  | nil => rfl
  | cons c cs ih =>
    simp only [hasSep, Bool.or_eq_false_iff] at h
    have hnone : sepSplit (c :: cs) = none :=
      Option.not_isSome_iff_eq_none.mp (by simp [h.1])
    simp only [splitLastSep, ih h.2, hnone]

theorem splitLastSep_cons_of_tail_some (c : Char) (cs pre : List Char)
    (d1 d2 : Char) (bgs : List Char)
    (h : splitLastSep cs = some (pre, d1, d2, bgs)) :
    splitLastSep (c :: cs) = some (c :: pre, d1, d2, bgs) := by
  simp only [splitLastSep, h]

theorem splitLastSep_cons_of_tail_none (c : Char) (cs : List Char)
    (h : splitLastSep cs = none) :
    splitLastSep (c :: cs) =
      match sepSplit (c :: cs) with
      | some (d1, d2, bgs) => some ([], d1, d2, bgs)
      | none => none := by
  simp only [splitLastSep, h]

theorem splitLastSep_append (x : List Char) (d1 d2 : Char)
    (bgs : List Char) (h1 : d1.isDigit = true) (h2 : d2.isDigit = true)
    (hs : hasSep (' ' :: bgs) = false) :
    splitLastSep
        (x ++ ' ' :: '(' :: d1 :: '/' :: d2 :: ')' :: ':' :: ' ' :: bgs) =
      some (x, d1, d2, bgs) := by
  have t6 : hasSep (' ' :: bgs) = false := hs
  have t5 : hasSep (':' :: ' ' :: bgs) = false := by
    simp only [hasSep, sepSplit_none_of_head ':' _ (by decide)]
    simpa [hasSep] using t6
  have t4 : hasSep (')' :: ':' :: ' ' :: bgs) = false := by
    simp only [hasSep, sepSplit_none_of_head ')' _ (by decide)]
    simpa [hasSep] using t5
  have t3 : hasSep (d2 :: ')' :: ':' :: ' ' :: bgs) = false := by
    simp only [hasSep, sepSplit_none_of_head d2 _ (digit_not_space d2 h2)]
    simpa [hasSep] using t4
  have t2 : hasSep ('/' :: d2 :: ')' :: ':' :: ' ' :: bgs) = false := by
    simp only [hasSep, sepSplit_none_of_head '/' _ (by decide)]
    simpa [hasSep] using t3
  have t1 : hasSep (d1 :: '/' :: d2 :: ')' :: ':' :: ' ' :: bgs) = false := by
    simp only [hasSep, sepSplit_none_of_head d1 _ (digit_not_space d1 h1)]
    simpa [hasSep] using t2
  have t0 : hasSep ('(' :: d1 :: '/' :: d2 :: ')' :: ':' :: ' ' :: bgs) = false := by
    simp only [hasSep, sepSplit_none_of_head '(' _ (by decide)]
    simpa [hasSep] using t1
  induction x with
  | nil =>
    rw [List.nil_append,
      splitLastSep_cons_of_tail_none ' ' _ (splitLastSep_none _ t0),
      sepSplit_designed d1 d2 bgs h1 h2]
  | cons c x2 ih =>
    rw [List.cons_append]
    exact splitLastSep_cons_of_tail_some c _ x2 d1 d2 bgs ih

/-- Claim C8: parsing the canonical rendering of a GameState gives a
state with the same normalized tuple.  The battleground collaborator's
renderer, parser and normal form are out of the spec's scope and enter
as parameters; the hypotheses are what the spec's battleground carve-out
("battleground edge cases not guaranteed") and reachability provide: a
single-digit active player and phase, a battleground rendering that
never makes the regex separator ` (d/d): ` match again at or after the
real separator, and a battleground rendering that its own parser maps
back to a normalize-equal battleground. -/
theorem c8_roundtrip (bgRepr : Battleground → List Char)
    (bgParse : List Char → Option Battleground)
    (bgNorm : Battleground → Battleground) (g : GameState)
    (ha : g.active_player < 10) (hph : g.phase < 10)
    (hsep : hasSep (' ' :: bgRepr g.battleground) = false)
    (hbg : ∃ bg2, bgParse (bgRepr g.battleground) = some bg2 ∧
      bgNorm bg2 = bgNorm g.battleground) :
    ∃ g2, GameState.from_string bgParse (GameState.repr bgRepr g) = some g2 ∧
      g2.normalizeWith bgNorm = g.normalizeWith bgNorm := by
  obtain ⟨bg2, hbp, hbn⟩ := hbg
  have hd1 : natToDigits g.active_player = [digitChar g.active_player] := by
    rw [natToDigits, dif_pos ha]
  have hd2 : natToDigits g.phase = [digitChar g.phase] := by
    rw [natToDigits, dif_pos hph]
  have hshape : GameState.repr bgRepr g =
      (intToChars g.life1 ++ '/' :: intToChars g.life2) ++
        ' ' :: '(' :: digitChar g.active_player :: '/' :: digitChar g.phase
          :: ')' :: ':' :: ' ' :: bgRepr g.battleground := by
    rw [GameState.repr, hd1, hd2]
    simp [List.append_assoc, List.cons_append, List.singleton_append]
  refine ⟨{ life1 := g.life1, life2 := g.life2, active_player := g.active_player, phase := g.phase, battleground := bg2 }, ?_, ?_⟩
  · rw [hshape]
    rw [GameState.from_string]
    rw [splitLastSep_append _ _ _ _ (digitChar_isDigit _ ha)
      (digitChar_isDigit _ hph) hsep]
    simp only
    rw [splitLastSlash_append (intToChars g.life1) (intToChars g.life2)
      (slash_not_mem_intToChars _) (slash_not_mem_intToChars _)
      (intToChars_ne_nil _)]
    simp only
    rw [if_neg (intToChars_ne_nil g.life1)]
    rw [parseInt_intToChars, parseInt_intToChars]
    simp only
    rw [hbp]
    simp only
    congr 2
    · rw [digitChar_toNat _ ha]
      omega
    · rw [digitChar_toNat _ hph]
      omega
  · simp [GameState.normalizeWith, hbn]

/-- Witness for C8: round-trip of a fresh GameState over an empty
battleground with the trivial battleground serializer. -/
theorem c8_roundtrip_witness :
    ∃ g2, GameState.from_string (fun _ => some [])
        (GameState.repr (fun _ => []) (GameState.new [])) = some g2 ∧
      g2.normalizeWith id = (GameState.new []).normalizeWith id :=
  c8_roundtrip (fun _ => []) (fun _ => some []) id (GameState.new [])
    (by decide) (by decide) (by decide) ⟨[], rfl, rfl⟩
